import Mathlib

/- Shallow embedding of the postcode-boundary resolution module of the
   openmaptest repository (the revised geoService source kept in src/App.tsx):
   the hierarchy generator getPostcodesToTry, the candidate scorer scoreResult,
   the per-fragment search searchNominatim, and the orchestrator
   fetchPostcodeBoundary.  JS strings are modelled as Lean strings (lists of
   characters, uppercasing taken character-wise on ASCII), JS numbers as
   rationals, the network as an explicit collaborator outcome per query. -/

/-- The whitespace characters removed by the JS String.trim (the
ECMAScript WhiteSpace and LineTerminator sets). -/
def isJsSpace (c : Char) : Bool :=
  c == ' ' || c == '\t' || c == '\n' || c == '\r' || c == '\x0b' || c == '\x0c' ||
  c == '\u00a0' || c == '\u1680' || c == '\u2000' || c == '\u2001' || c == '\u2002' ||
  c == '\u2003' || c == '\u2004' || c == '\u2005' || c == '\u2006' || c == '\u2007' ||
  c == '\u2008' || c == '\u2009' || c == '\u200a' || c == '\u2028' || c == '\u2029' ||
  c == '\u202f' || c == '\u205f' || c == '\u3000' || c == '\ufeff'

/-- JS String.trim: drop whitespace from both ends. -/
def jsTrim (l : List Char) : List Char :=
  ((l.dropWhile isJsSpace).reverse.dropWhile isJsSpace).reverse

/-- The regex replacement replace(/ +/g, a single space): every maximal run of
space characters collapses to one space (the last space of the run is kept,
the earlier ones dropped). -/
def collapseSpaces : List Char → List Char
  | [] => []
  | [c] => [c]
  | c1 :: c2 :: rest =>
    if c1 = ' ' ∧ c2 = ' ' then collapseSpaces (c2 :: rest)
    else c1 :: collapseSpaces (c2 :: rest)

/-- JS String.startsWith on character lists: leadsL s p holds when p is an
initial run of s. -/
def leadsL : List Char → List Char → Bool
  | _, [] => true
  | [], _ :: _ => false
  | c :: cs, p :: ps => c == p && leadsL cs ps

/-- JS String.includes on character lists: hasL s p holds when p occurs
contiguously somewhere in s. -/
def hasL : List Char → List Char → Bool
  | [], p => leadsL [] p
  | c :: cs, p => leadsL (c :: cs) p || hasL cs p

/-- The JS Set-based deduplication spread: keep the first occurrence of each
element, in order; seen accumulates the elements already emitted. -/
def dedupAcc (seen : List (List Char)) : List (List Char) → List (List Char)
  | [] => []
  | x :: xs => if x ∈ seen then dedupAcc seen xs else x :: dedupAcc (x :: seen) xs

/-- The regex test /[A-Z]$/. -/
def endsUpperAlpha (l : List Char) : Bool :=
  match l.getLast? with
  | some c => 'A' ≤ c && c ≤ 'Z'
  | none => false

/-- The regex test /[0-9]$/ (JS d anchored at the end). -/
def endsDigit (l : List Char) : Bool :=
  match l.getLast? with
  | some c => c.isDigit
  | none => false

/-- The regex test for a digit anywhere in the string. -/
def containsDigit (l : List Char) : Bool := l.any Char.isDigit

/-- The regex replacement removing the maximal trailing digit run. -/
def stripTrailDigits (l : List Char) : List Char :=
  (l.reverse.dropWhile Char.isDigit).reverse

/-- The broadening while-loop of getPostcodesToTry, as the list of fragments it
pushes; fuel bounds the iteration count (the loop shortens current at every
step, so fuel = current.length suffices, proved below). -/
def broadenFuel : Nat → List Char → List (List Char)
  | 0, _ => []
  | fuel + 1, current =>
    if 1 < current.length then
      if endsUpperAlpha current && containsDigit current then
        current.dropLast :: broadenFuel fuel current.dropLast
      else if endsDigit current then
        if 0 < (stripTrailDigits current).length ∧ stripTrailDigits current ≠ current then
          stripTrailDigits current :: broadenFuel fuel (stripTrailDigits current)
        else []
      else []
    else []

/-- The normalization of the input: trim, uppercase, collapse space runs
(postcode.trim().toUpperCase().replace of space runs by single spaces). -/
def cleanedL (l : List Char) : List Char :=
  collapseSpaces ((jsTrim l).map Char.toUpper)

/-- The outward code: cleaned.split at spaces, first part. -/
def outwardL (l : List Char) : List Char :=
  (cleanedL l).takeWhile (fun c => c != ' ')

/-- The pushes of getPostcodesToTry before deduplication: the cleaned full
postcode when it contains a space, then the outward code, then the broadening
steps. -/
def rawHierarchy (l : List Char) : List (List Char) :=
  (if ' ' ∈ cleanedL l then [cleanedL l] else []) ++
    outwardL l :: broadenFuel (outwardL l).length (outwardL l)

/-- getPostcodesToTry on character lists: the pushed hierarchy with duplicates
removed keeping first occurrences. -/
def getPostcodesToTryL (l : List Char) : List (List Char) :=
  dedupAcc [] (rawHierarchy l)

/-- The hierarchy generator getPostcodesToTry of src/App.tsx. -/
def getPostcodesToTry (postcode : String) : List String :=
  (getPostcodesToTryL postcode.data).map String.mk

/-- The geojson field of a Nominatim result: only its type tag matters to this
module (the coordinates are an opaque payload handed to the renderer). -/
structure GeoShape where
  kind : String
  deriving DecidableEq

/-- The optional structured address object of a Nominatim result. -/
structure JsAddress where
  postcode : Option String
  deriving DecidableEq

/-- One search-result record from the Nominatim API, with the fields scoreResult
and searchNominatim read.  The source field named class is spelled class_
(a Lean keyword); importance may be absent (JS undefined). -/
structure NominatimResult where
  display_name : String
  class_ : String
  type : String
  importance : Option ℚ
  address : Option JsAddress
  geojson : Option GeoShape
  deriving DecidableEq

/-- The condition displayName.startsWith(queryUpper comma) or
displayName.startsWith(queryUpper space), both sides uppercased. -/
def labelLeads (result : NominatimResult) (query : String) : Bool :=
  let displayName := result.display_name.data.map Char.toUpper
  let queryUpper := query.data.map Char.toUpper
  leadsL displayName (queryUpper ++ [',']) || leadsL displayName (queryUpper ++ [' '])

/-- The condition displayName.includes(queryUpper). -/
def labelHas (result : NominatimResult) (query : String) : Bool :=
  hasL (result.display_name.data.map Char.toUpper) (query.data.map Char.toUpper)

/-- The condition result.address?.postcode?.toUpperCase().startsWith(queryUpper):
false when the address or its postcode is absent. -/
def addrMatches (result : NominatimResult) (query : String) : Bool :=
  match result.address with
  | some a =>
    match a.postcode with
    | some p => leadsL (p.data.map Char.toUpper) (query.data.map Char.toUpper)
    | none => false
  | none => false

/-- The penalized boundary subtypes of scoreResult. -/
def penalizedTypes : List String :=
  ["administrative", "county", "city", "suburb", "borough"]

/-- The candidate scorer scoreResult of src/App.tsx.  The imperative
accumulation is written as one sum; note that in the source the +20
substring branch is the else of the +50 structured-postcode check (the +80
label check is an independent if). -/
def scoreResult (result : NominatimResult) (query : String) : ℚ :=
  (if result.class_ == "boundary" && result.type == "postal_code" then 100 else 0)
  + (if labelLeads result query then 80 else 0)
  + (if addrMatches result query then 50
     else if labelHas result query then 20 else 0)
  + (result.importance.getD 0) * 10
  - (if result.class_ == "boundary" && penalizedTypes.contains result.type then 60 else 0)

/-- The confidence threshold of searchNominatim. -/
def MINIMUM_CONFIDENCE_SCORE : ℚ := 50

/-- The filter keeping results whose geojson is a Polygon or MultiPolygon. -/
def hasPolygonShape (r : NominatimResult) : Bool :=
  match r.geojson with
  | some g => g.kind == "Polygon" || g.kind == "MultiPolygon"
  | none => false

/-- One step of the stable descending sort by score: insert x before the first
strictly smaller score. -/
def insertByScore (x : NominatimResult × ℚ) :
    List (NominatimResult × ℚ) → List (NominatimResult × ℚ)
  | [] => [x]
  | y :: ys => if y.2 < x.2 then x :: y :: ys else y :: insertByScore x ys

/-- The JS Array.sort with comparator on scores, descending; stable (ties keep
input order), which is all the source relies on. -/
def sortByScoreDesc : List (NominatimResult × ℚ) → List (NominatimResult × ℚ)
  | [] => []
  | x :: xs => insertByScore x (sortByScoreDesc xs)

/-- The shaped results of a response, paired with their scores and ranked:
data.filter on geometry, map over scoreResult, sort descending. -/
def rankCandidates (data : List NominatimResult) (postcode : String) :
    List (NominatimResult × ℚ) :=
  sortByScoreDesc ((data.filter hasPolygonShape).map (fun r => (r, scoreResult r postcode)))

/-- One fetch call's outcome, the collaborator's behaviour for one query: the
promise may reject (network-level transport failure, a JS exception), resolve
with a non-ok HTTP status, or resolve with a parsed result list. -/
inductive FetchOutcome where
  | thrown (msg : String)
  | httpError
  | success (data : List NominatimResult)
  deriving DecidableEq

/-- searchNominatim of src/App.tsx given its one fetch's outcome: a thrown
rejection propagates (no try/catch in the source); a non-ok response returns
null; otherwise filter to shaped results, score, sort, and return the best
match when its score reaches the threshold, else null. -/
def searchNominatim (outcome : FetchOutcome) (postcode : String) :
    Except String (Option NominatimResult) :=
  match outcome with
  | .thrown msg => .error msg
  | .httpError => .ok none
  | .success data =>
    if data.isEmpty then .ok none
    else if (data.filter hasPolygonShape).isEmpty then .ok none
    else
      match (rankCandidates data postcode).head? with
      | some bestMatch =>
        if MINIMUM_CONFIDENCE_SCORE ≤ bestMatch.2 then .ok (some bestMatch.1)
        else .ok none
      | none => .ok none

/-- The fragment loop of fetchPostcodeBoundary: try each fragment in order,
recording the queries issued; return on the first accepted result, propagate a
thrown error, fall through on null. -/
def runResolution (behavior : String → FetchOutcome) :
    List String → List String × Except String (Option NominatimResult)
  | [] => ([], .ok none)
  | pc :: rest =>
    match searchNominatim (behavior pc) pc with
    | .error e => ([pc], .error e)
    | .ok (some r) => ([pc], .ok (some r))
    | .ok none =>
      let next := runResolution behavior rest
      (pc :: next.1, next.2)

/-- The terminal no-boundary error message, naming every attempted fragment. -/
def noBoundaryMsg (tries : List String) : String :=
  "No geographical boundary data found for this postcode. We tried searching for \"" ++
  String.intercalate "\", \"" tries ++ "\" but found no matching areas."

/-- fetchPostcodeBoundary of src/App.tsx, also exposing the list of queries it
issued: empty or whitespace-only input fails at once with the invalid-input
message and no query; otherwise the hierarchy is walked by runResolution. -/
def fetchPostcodeBoundaryRun (behavior : String → FetchOutcome) (postcode : String) :
    List String × Except String NominatimResult :=
  if jsTrim postcode.data = [] then ([], .error "Please enter a postcode.")
  else
    let tries := getPostcodesToTry postcode
    match runResolution behavior tries with
    | (qs, .error e) => (qs, .error e)
    | (qs, .ok (some r)) => (qs, .ok r)
    | (qs, .ok none) => (qs, .error (noBoundaryMsg tries))

/-- The exported entry point: the resolution's final outcome. -/
def fetchPostcodeBoundary (behavior : String → FetchOutcome) (postcode : String) :
    Except String NominatimResult :=
  (fetchPostcodeBoundaryRun behavior postcode).2

/-- Normalization as the specification words it (trim, uppercase, collapse runs
of internal whitespace to single spaces): every maximal run of whitespace
characters becomes one space.  This follows the spec text, to be compared with
cleanedL, which follows the source (the source collapses only runs of the space
character itself). -/
def collapseWsRuns : List Char → List Char
  | [] => []
  | [c] => if isJsSpace c then [' '] else [c]
  | c1 :: c2 :: rest =>
    if isJsSpace c1 && isJsSpace c2 then collapseWsRuns (c2 :: rest)
    else (if isJsSpace c1 then ' ' else c1) :: collapseWsRuns (c2 :: rest)

/-- The spec-worded normalization on strings (see collapseWsRuns). -/
def specNormalize (s : String) : String :=
  String.mk (collapseWsRuns ((jsTrim s.data).map Char.toUpper))

/-- A boundary/administrative candidate whose label leads with the query, with
no structured address and importance 2. -/
def adminBoundary2 : NominatimResult :=
  { display_name := "SW1, LONDON", class_ := "boundary", type := "administrative",
    importance := some 2, address := none, geojson := some { kind := "Polygon" } }

/-- The same shape of candidate with importance one half. -/
def adminBoundaryHalf : NominatimResult :=
  { display_name := "SW1, LONDON", class_ := "boundary", type := "administrative",
    importance := some (1 / 2), address := none, geojson := some { kind := "Polygon" } }

/-- A plain place candidate (not a boundary) whose label leads with the query,
with no structured address and no importance. -/
def plainLeading : NominatimResult :=
  { display_name := "SW1, LONDON", class_ := "place", type := "suburb",
    importance := none, address := none, geojson := none }

/-- A gold-standard postal_code boundary candidate for the fragment SW. -/
def goldSW : NominatimResult :=
  { display_name := "SW, LONDON, UNITED KINGDOM", class_ := "boundary",
    type := "postal_code", importance := none, address := none,
    geojson := some { kind := "Polygon" } }

/-- A gold-standard postal_code boundary candidate for the fragment SW1. -/
def goldSW1 : NominatimResult :=
  { display_name := "SW1, LONDON, UNITED KINGDOM", class_ := "boundary",
    type := "postal_code", importance := none, address := none,
    geojson := some { kind := "Polygon" } }

/-- A collaborator whose fetch for SW1 throws (the promise rejects) while the
broader fragment SW would answer with an acceptable candidate. -/
def throwingBehavior : String → FetchOutcome :=
  fun q => if q == "SW1" then FetchOutcome.thrown "NetworkError when attempting to fetch resource."
  else FetchOutcome.success [goldSW]

/-- A collaborator answering the fragment SW1 with one acceptable candidate and
every other query with an HTTP error. -/
def acceptingBehavior : String → FetchOutcome :=
  fun q => if q == "SW1" then FetchOutcome.success [goldSW1] else FetchOutcome.httpError

/- Supporting lemmas. -/

theorem leadsL_of_append {s p q : List Char} (h : leadsL s (p ++ q) = true) :
    leadsL s p = true := by
  induction p generalizing s with
  | nil => cases s <;> rfl
  | cons a ps ih =>
    cases s with
    | nil => simp [leadsL] at h
    | cons b bs =>
      simp only [List.cons_append, leadsL, Bool.and_eq_true] at h ⊢
      exact ⟨h.1, ih h.2⟩

theorem hasL_of_leadsL {s p : List Char} (h : leadsL s p = true) : hasL s p = true := by
  cases s with
  | nil => exact h
  | cons c cs => simp only [hasL, Bool.or_eq_true]; exact Or.inl h

theorem labelHas_of_labelLeads (r : NominatimResult) (q : String)
    (h : labelLeads r q = true) : labelHas r q = true := by
  unfold labelLeads at h
  rcases Bool.or_eq_true_iff.mp h with h1 | h1 <;>
    exact hasL_of_leadsL (leadsL_of_append h1)

theorem dropWhile_length_le (p : Char → Bool) (l : List Char) :
    (l.dropWhile p).length ≤ l.length :=
  (List.dropWhile_suffix p).sublist.length_le

theorem stripTrailDigits_length_le (l : List Char) :
    (stripTrailDigits l).length ≤ l.length := by
  unfold stripTrailDigits
  rw [List.length_reverse]
  calc (l.reverse.dropWhile Char.isDigit).length ≤ l.reverse.length :=
        dropWhile_length_le _ _
    _ = l.length := List.length_reverse l

theorem stripTrailDigits_length_lt (l : List Char) (h : stripTrailDigits l ≠ l) :
    (stripTrailDigits l).length < l.length := by
  rcases Nat.lt_or_ge (stripTrailDigits l).length l.length with hlt | hge
  · exact hlt
  · exfalso
    have hle := stripTrailDigits_length_le l
    have hlen : (stripTrailDigits l).length = l.length := Nat.le_antisymm hle hge
    have hlen2 : (l.reverse.dropWhile Char.isDigit).length = l.reverse.length := by
      have h1 : (stripTrailDigits l).length = (l.reverse.dropWhile Char.isDigit).length := by
        unfold stripTrailDigits; rw [List.length_reverse]
      rw [List.length_reverse]; omega
    have heq : l.reverse.dropWhile Char.isDigit = l.reverse :=
      (List.dropWhile_suffix Char.isDigit).sublist.eq_of_length hlen2
    apply h
    unfold stripTrailDigits
    rw [heq, List.reverse_reverse]

theorem broadenFuel_nil (fuel : Nat) : broadenFuel fuel [] = [] := by
  cases fuel <;> simp [broadenFuel]

theorem broadenFuel_mem_length :
    ∀ (fuel : Nat) (c y : List Char), y ∈ broadenFuel fuel c → y.length < c.length := by
  intro fuel
  induction fuel with
  | zero => intro c y hy; simp [broadenFuel] at hy
  | succ n ih =>
    intro c y hy
    unfold broadenFuel at hy
    split at hy
    case isTrue hlen =>
      split at hy
      case isTrue hbranch =>
        rcases List.mem_cons.mp hy with h | h
        · subst h; rw [List.length_dropLast]; omega
        · have := ih _ _ h
          rw [List.length_dropLast] at this; omega
      case isFalse =>
        split at hy
        case isTrue =>
          split at hy
          case isTrue hguard =>
            have harea : (stripTrailDigits c).length < c.length :=
              stripTrailDigits_length_lt c hguard.2
            rcases List.mem_cons.mp hy with h | h
            · subst h; exact harea
            · exact Nat.lt_trans (ih _ _ h) harea
          case isFalse => simp at hy
        case isFalse => simp at hy
    case isFalse => simp at hy

theorem broadenFuel_pairwise :
    ∀ (fuel : Nat) (c : List Char),
      (broadenFuel fuel c).Pairwise (fun a b => b.length < a.length) := by
  intro fuel
  induction fuel with
  | zero => intro c; simp [broadenFuel]
  | succ n ih =>
    intro c
    unfold broadenFuel
    split
    · split
      · exact List.pairwise_cons.mpr
          ⟨fun y hy => broadenFuel_mem_length n _ y hy, ih _⟩
      · split
        · split
          · exact List.pairwise_cons.mpr
              ⟨fun y hy => broadenFuel_mem_length n _ y hy, ih _⟩
          · exact List.Pairwise.nil
        · exact List.Pairwise.nil
    · exact List.Pairwise.nil

theorem dedupAcc_sublist :
    ∀ (l seen : List (List Char)), (dedupAcc seen l).Sublist l := by
  intro l
  induction l with
  | nil => intro seen; simp [dedupAcc]
  | cons x xs ih =>
    intro seen
    unfold dedupAcc
    split
    · exact (ih seen).trans (List.sublist_cons_self x xs)
    · exact (ih (x :: seen)).cons₂ x

theorem dedupAcc_not_seen :
    ∀ (l seen : List (List Char)) (y : List Char), y ∈ dedupAcc seen l → y ∉ seen := by
  intro l
  induction l with
  | nil => intro seen y hy; simp [dedupAcc] at hy
  | cons x xs ih =>
    intro seen y hy
    unfold dedupAcc at hy
    split at hy
    · exact ih seen y hy
    case isFalse hnot =>
      rcases List.mem_cons.mp hy with h | h
      · subst h; exact hnot
      · intro hseen
        exact ih (x :: seen) y h (List.mem_cons_of_mem x hseen)

theorem dedupAcc_nodup :
    ∀ (l seen : List (List Char)), (dedupAcc seen l).Nodup := by
  intro l
  induction l with
  | nil => intro seen; simp [dedupAcc]
  | cons x xs ih =>
    intro seen
    unfold dedupAcc
    split
    · exact ih seen
    · refine List.nodup_cons.mpr ⟨fun hmem => ?_, ih (x :: seen)⟩
      exact dedupAcc_not_seen xs (x :: seen) x hmem (List.mem_cons_self x seen)

theorem takeWhile_length_le (p : Char → Bool) (l : List Char) :
    (l.takeWhile p).length ≤ l.length := by
  induction l with
  | nil => simp
  | cons c cs ih =>
    rw [List.takeWhile_cons]
    split
    · simpa using Nat.succ_le_succ ih
    · simp

theorem outwardL_length_le (l : List Char) :
    (outwardL l).length ≤ (cleanedL l).length :=
  takeWhile_length_le _ _

theorem outwardL_eq_of_no_space (l : List Char) (h : ' ' ∉ cleanedL l) :
    outwardL l = cleanedL l := by
  unfold outwardL
  refine List.takeWhile_eq_self_iff.mpr fun c hc => ?_
  have : c ≠ ' ' := fun he => h (he ▸ hc)
  simpa using this

theorem rawHierarchy_pairwise (l : List Char) :
    (rawHierarchy l).Pairwise (fun a b => b.length ≤ a.length) := by
  unfold rawHierarchy
  have houtward : (outwardL l :: broadenFuel (outwardL l).length (outwardL l)).Pairwise
      (fun a b => b.length ≤ a.length) := by
    refine List.pairwise_cons.mpr ⟨fun y hy => ?_, ?_⟩
    · exact Nat.le_of_lt (broadenFuel_mem_length _ _ y hy)
    · exact (broadenFuel_pairwise _ _).imp fun h => Nat.le_of_lt h
  split
  · rw [List.singleton_append]
    refine List.pairwise_cons.mpr ⟨fun y hy => ?_, houtward⟩
    rcases List.mem_cons.mp hy with h | h
    · subst h; exact outwardL_length_le l
    · exact Nat.le_trans (Nat.le_of_lt (broadenFuel_mem_length _ _ y h))
        (outwardL_length_le l)
  · rw [List.nil_append]
    exact houtward

theorem getPostcodesToTryL_pairwise (l : List Char) :
    (getPostcodesToTryL l).Pairwise (fun a b => b.length ≤ a.length) :=
  List.Pairwise.sublist (dedupAcc_sublist (rawHierarchy l) []) (rawHierarchy_pairwise l)

theorem getPostcodesToTryL_nodup (l : List Char) : (getPostcodesToTryL l).Nodup :=
  dedupAcc_nodup (rawHierarchy l) []

theorem mk_injective : Function.Injective String.mk := by
  intro a b h
  exact congrArg String.data h

theorem getPostcodesToTry_nodup_all (s : String) : (getPostcodesToTry s).Nodup :=
  (getPostcodesToTryL_nodup s.data).map mk_injective

theorem length_mk (a : List Char) : (String.mk a).length = a.length := rfl

theorem getPostcodesToTry_chain_all (s : String) :
    (getPostcodesToTry s).Chain' (fun a b => b.length ≤ a.length) := by
  unfold getPostcodesToTry
  rw [List.chain'_map]
  exact ((getPostcodesToTryL_pairwise s.data).imp fun h => h).chain'

theorem dedupAcc_nil_cons (x : List Char) (xs : List (List Char)) :
    dedupAcc [] (x :: xs) = x :: dedupAcc [x] xs := by
  show (if x ∈ ([] : List (List Char)) then dedupAcc [] xs else x :: dedupAcc [x] xs) =
    x :: dedupAcc [x] xs
  rw [if_neg (List.not_mem_nil x)]

theorem getPostcodesToTryL_head (l : List Char) :
    ∃ t, getPostcodesToTryL l = cleanedL l :: t := by
  unfold getPostcodesToTryL rawHierarchy
  split
  · rw [List.singleton_append, dedupAcc_nil_cons]
    exact ⟨_, rfl⟩
  case isFalse hmem =>
    rw [List.nil_append, outwardL_eq_of_no_space l hmem, dedupAcc_nil_cons]
    exact ⟨_, rfl⟩

theorem broadenFuel_stable :
    ∀ (f1 f2 : Nat) (c : List Char), c.length ≤ f1 → c.length ≤ f2 →
      broadenFuel f1 c = broadenFuel f2 c := by
  intro f1
  induction f1 with
  | zero =>
    intro f2 c h1 _
    have : c = [] := List.length_eq_zero.mp (Nat.le_zero.mp h1)
    subst this
    rw [broadenFuel_nil, broadenFuel_nil]
  | succ n ih =>
    intro f2 c h1 h2
    cases f2 with
    | zero =>
      have : c = [] := List.length_eq_zero.mp (Nat.le_zero.mp h2)
      subst this
      rw [broadenFuel_nil, broadenFuel_nil]
    | succ m =>
      show broadenFuel (n + 1) c = broadenFuel (m + 1) c
      unfold broadenFuel
      split
      case isTrue hlen =>
        split
        · have hd : c.dropLast.length ≤ n := by rw [List.length_dropLast]; omega
          have hd2 : c.dropLast.length ≤ m := by rw [List.length_dropLast]; omega
          rw [ih m c.dropLast hd hd2]
        · split
          · split
            case isTrue hguard =>
              have hlt : (stripTrailDigits c).length < c.length :=
                stripTrailDigits_length_lt c hguard.2
              have ha : (stripTrailDigits c).length ≤ n := by omega
              have ha2 : (stripTrailDigits c).length ≤ m := by omega
              rw [ih m (stripTrailDigits c) ha ha2]
            case isFalse => rfl
          · rfl
      case isFalse => rfl

theorem runResolution_skip (behavior : String → FetchOutcome) (pc : String)
    (rest : List String) (h : searchNominatim (behavior pc) pc = Except.ok none) :
    runResolution behavior (pc :: rest) =
      (pc :: (runResolution behavior rest).1, (runResolution behavior rest).2) := by
  simp only [runResolution, h]

theorem runResolution_all_skip (behavior : String → FetchOutcome)
    (pre rest : List String)
    (h : ∀ q ∈ pre, searchNominatim (behavior q) q = Except.ok none) :
    runResolution behavior (pre ++ rest) =
      (pre ++ (runResolution behavior rest).1, (runResolution behavior rest).2) := by
  induction pre with
  | nil => simp
  | cons q qs ih =>
    have hq : searchNominatim (behavior q) q = Except.ok none :=
      h q (List.mem_cons_self q qs)
    have hrest := ih fun x hx => h x (List.mem_cons_of_mem q hx)
    rw [List.cons_append, runResolution_skip behavior q (qs ++ rest) hq, hrest]
    simp

theorem runResolution_none_iff (behavior : String → FetchOutcome) (l : List String) :
    (runResolution behavior l).2 = Except.ok none ↔
      ∀ q ∈ l, searchNominatim (behavior q) q = Except.ok none := by
  induction l with
  | nil => simp [runResolution]
  | cons pc rest ih =>
    constructor
    · intro h q hq
      unfold runResolution at h
      rcases hsearch : searchNominatim (behavior pc) pc with e | or
      · rw [hsearch] at h; simp at h
      · rcases or with _ | r
        · rw [hsearch] at h
          simp only at h
          rcases List.mem_cons.mp hq with rfl | hq2
          · exact hsearch
          · exact ih.mp h q hq2
        · rw [hsearch] at h; simp at h
    · intro h
      have hpc : searchNominatim (behavior pc) pc = Except.ok none :=
        h pc (List.mem_cons_self pc rest)
      rw [runResolution_skip behavior pc rest hpc]
      exact ih.mpr fun q hq => h q (List.mem_cons_of_mem pc hq)

theorem insertByScore_length (x : NominatimResult × ℚ) (l : List (NominatimResult × ℚ)) :
    (insertByScore x l).length = l.length + 1 := by
  induction l with
  | nil => rfl
  | cons y ys ih =>
    unfold insertByScore
    split
    · simp
    · simp [ih]

theorem sortByScoreDesc_length (l : List (NominatimResult × ℚ)) :
    (sortByScoreDesc l).length = l.length := by
  induction l with
  | nil => rfl
  | cons x xs ih =>
    unfold sortByScoreDesc
    rw [insertByScore_length, ih]
    rfl

theorem searchNominatim_success_top (data : List NominatimResult) (pc : String)
    (r : NominatimResult) (sc : ℚ)
    (htop : (rankCandidates data pc).head? = some (r, sc))
    (hsc : MINIMUM_CONFIDENCE_SCORE ≤ sc) :
    searchNominatim (FetchOutcome.success data) pc = Except.ok (some r) := by
  have hrank : rankCandidates data pc ≠ [] := by
    intro he; rw [he] at htop; simp at htop
  have hfilter : (data.filter hasPolygonShape) ≠ [] := by
    intro he
    apply hrank
    unfold rankCandidates
    rw [he]
    rfl
  have hdata : data ≠ [] := by
    intro he
    apply hfilter
    rw [he]
    rfl
  simp only [searchNominatim]
  rw [if_neg (by simpa [List.isEmpty_iff] using hdata),
    if_neg (by simpa [List.isEmpty_iff] using hfilter), htop]
  simp [hsc]

/- Claim theorems. -/

/-- C3 counterexample: on the input SE21 the hierarchy generator does not
return the three-element list SE21, SE2, SE claimed by the specification: the
source strips the whole trailing digit run in one step. -/
theorem C3_counterexample : getPostcodesToTry "SE21" ≠ ["SE21", "SE2", "SE"] := by
  decide

/-- C3 (amended): the hierarchy generator applied to SE21 returns exactly the
two-element list SE21, SE, the maximal trailing digit run being stripped in a
single step. -/
theorem C3_thm : getPostcodesToTry "SE21" = ["SE21", "SE"] := by
  decide

/-- C4: the hierarchy generator applied to SW1A 0AA returns exactly
SW1A 0AA, SW1A, SW1, SW, and applied to M1 returns exactly M1, M. -/
theorem C4_thm :
    getPostcodesToTry "SW1A 0AA" = ["SW1A 0AA", "SW1A", "SW1", "SW"] ∧
    getPostcodesToTry "M1" = ["M1", "M"] :=
  ⟨by decide, by decide⟩

/-- C6: for every input string the hierarchy generator returns a list without
duplicates in which every element's length is at most the length of the
element before it. -/
theorem C6_thm (s : String) :
    (getPostcodesToTry s).Nodup ∧
    (getPostcodesToTry s).Chain' (fun a b => b.length ≤ a.length) :=
  ⟨getPostcodesToTry_nodup_all s, getPostcodesToTry_chain_all s⟩

/-- C10 counterexample: on the input A-tab-tab-B the first element returned by
the hierarchy generator is not the input with internal whitespace runs
collapsed to single spaces (the source collapses only runs of the space
character, leaving tabs alone). -/
theorem C10_counterexample :
    (getPostcodesToTry "A\t\tB").head? ≠ some (specNormalize "A\t\tB") := by
  decide

/-- C10 (amended): for every input string the hierarchy generator terminates
(the broadening loop is stable once its fuel reaches the outward code's
length) and returns a non-empty list whose first element is the input trimmed,
uppercased, with internal runs of space characters collapsed to single
spaces. -/
theorem C10_thm (s : String) (extra : Nat) :
    getPostcodesToTry s ≠ [] ∧
    (getPostcodesToTry s).head? = some (String.mk (cleanedL s.data)) ∧
    broadenFuel ((outwardL s.data).length + extra) (outwardL s.data) =
      broadenFuel (outwardL s.data).length (outwardL s.data) := by
  obtain ⟨t, ht⟩ := getPostcodesToTryL_head s.data
  refine ⟨?_, ?_, ?_⟩
  · unfold getPostcodesToTry
    rw [ht]
    simp
  · unfold getPostcodesToTry
    rw [ht]
    simp
  · exact broadenFuel_stable _ _ _ (Nat.le_add_right _ _) (Nat.le_refl _)

/-- C1 counterexample: the boundary/administrative candidate adminBoundary2
(label leads with the query, no structured postcode, importance 2 which is
below 3) scores 80 + 20 - 60 + 20 = 60, not the claimed 80 - 60 + 20 = 40:
the +20 substring bonus also fires, and 60 is not below the threshold of
50. -/
theorem C1_counterexample :
    adminBoundary2.importance.getD 0 < 3 ∧
    scoreResult adminBoundary2 "SW1" = 60 ∧
    MINIMUM_CONFIDENCE_SCORE ≤ scoreResult adminBoundary2 "SW1" := by
  have h1 : (adminBoundary2.class_ == "boundary" && adminBoundary2.type == "postal_code")
      = false := by decide
  have h2 : labelLeads adminBoundary2 "SW1" = true := by decide
  have h3 : addrMatches adminBoundary2 "SW1" = false := by decide
  have h4 : labelHas adminBoundary2 "SW1" = true := by decide
  have h5 : (adminBoundary2.class_ == "boundary" &&
      penalizedTypes.contains adminBoundary2.type) = true := by decide
  have h6 : adminBoundary2.importance.getD 0 = 2 := by decide
  have hs : scoreResult adminBoundary2 "SW1" = 60 := by
    unfold scoreResult
    rw [h1, h2, h3, h4, h5, h6]
    norm_num
  refine ⟨?_, hs, ?_⟩
  · rw [h6]; norm_num
  · rw [hs]; unfold MINIMUM_CONFIDENCE_SCORE; norm_num

/-- C1 (amended): for every candidate with classification boundary, subtype
administrative, a label that leads with the query followed by a comma or
space, and no structured address, scoreResult returns
80 + 20 - 60 + importance times 10 = 40 + importance times 10 (the substring
bonus fires as well, since the prefix match entails label containment and the
structured-postcode check fails), which is strictly below the threshold of 50
exactly when importance < 1. -/
theorem C1_thm (r : NominatimResult) (q : String)
    (hc : r.class_ = "boundary") (ht : r.type = "administrative")
    (hlead : labelLeads r q = true) (haddr : r.address = none) :
    scoreResult r q = 40 + (r.importance.getD 0) * 10 ∧
    (r.importance.getD 0 < 1 → scoreResult r q < MINIMUM_CONFIDENCE_SCORE) := by
  have h1 : (r.class_ == "boundary" && r.type == "postal_code") = false := by
    rw [hc, ht]; decide
  have h2 : addrMatches r q = false := by
    unfold addrMatches
    rw [haddr]
  have h3 : labelHas r q = true := labelHas_of_labelLeads r q hlead
  have h4 : (r.class_ == "boundary" && penalizedTypes.contains r.type) = true := by
    rw [hc, ht]; decide
  have hs : scoreResult r q = 40 + (r.importance.getD 0) * 10 := by
    unfold scoreResult
    rw [h1, h2, h3, h4, hlead]
    norm_num
    ring
  refine ⟨hs, fun himp => ?_⟩
  rw [hs]
  unfold MINIMUM_CONFIDENCE_SCORE
  linarith

/-- C1 witness: the amended theorem at the concrete candidate
adminBoundaryHalf and query SW1. -/
theorem C1_witness :
    scoreResult adminBoundaryHalf "SW1" = 40 + (adminBoundaryHalf.importance.getD 0) * 10 ∧
    (adminBoundaryHalf.importance.getD 0 < 1 →
      scoreResult adminBoundaryHalf "SW1" < MINIMUM_CONFIDENCE_SCORE) :=
  C1_thm adminBoundaryHalf "SW1" rfl rfl (by decide) rfl

/-- C2 counterexample: the candidate plainLeading (label SW1, LONDON leads
with the query SW1; not a boundary, no structured address, importance absent)
scores 100 = 80 + 20 on the query SW1: the only rules that can fire on it are
the +80 label bonus and the +20 substring bonus, so both fired, though the
claim says they are mutually exclusive. -/
theorem C2_counterexample :
    labelLeads plainLeading "SW1" = true ∧ scoreResult plainLeading "SW1" = 80 + 20 := by
  have h1 : (plainLeading.class_ == "boundary" && plainLeading.type == "postal_code")
      = false := by decide
  have h2 : labelLeads plainLeading "SW1" = true := by decide
  have h3 : addrMatches plainLeading "SW1" = false := by decide
  have h4 : labelHas plainLeading "SW1" = true := by decide
  have h5 : (plainLeading.class_ == "boundary" &&
      penalizedTypes.contains plainLeading.type) = false := by decide
  have h6 : plainLeading.importance.getD 0 = 0 := by decide
  refine ⟨h2, ?_⟩
  unfold scoreResult
  rw [h1, h2, h3, h4, h5, h6]
  norm_num

/-- C2 (amended): the +80 label bonus and the +20 substring bonus are not
mutually exclusive; the +20 substring bonus is instead the else branch of the
+50 structured-postcode bonus.  For every candidate whose uppercased label
leads with the uppercased query followed by a comma or space, scoreResult is
the +80 bonus plus exactly one of +50 (structured postcode matches) or +20
(it does not, and the prefix match entails label containment), plus the gold
bonus, the importance term and the penalty. -/
theorem C2_thm (r : NominatimResult) (q : String) (hlead : labelLeads r q = true) :
    scoreResult r q =
      (if r.class_ == "boundary" && r.type == "postal_code" then 100 else 0)
      + 80
      + (if addrMatches r q then 50 else 20)
      + (r.importance.getD 0) * 10
      - (if r.class_ == "boundary" && penalizedTypes.contains r.type then 60 else 0) := by
  have h3 : labelHas r q = true := labelHas_of_labelLeads r q hlead
  unfold scoreResult
  rw [hlead, h3]
  rcases h : addrMatches r q with _ | _ <;> simp

/-- C2 witness: the amended theorem at the concrete candidate plainLeading and
query SW1. -/
theorem C2_witness :
    scoreResult plainLeading "SW1" =
      (if plainLeading.class_ == "boundary" && plainLeading.type == "postal_code"
        then 100 else 0)
      + 80
      + (if addrMatches plainLeading "SW1" then 50 else 20)
      + (plainLeading.importance.getD 0) * 10
      - (if plainLeading.class_ == "boundary" &&
          penalizedTypes.contains plainLeading.type then 60 else 0) :=
  C2_thm plainLeading "SW1" (by decide)

/-- C5: every candidate with classification boundary and subtype exactly
postal_code and non-negative importance scores at least 100, hence at least
the confidence threshold of 50, whatever its other fields. -/
theorem C5_thm (r : NominatimResult) (q : String)
    (hc : r.class_ = "boundary") (ht : r.type = "postal_code")
    (himp : 0 ≤ r.importance.getD 0) :
    100 ≤ scoreResult r q ∧ MINIMUM_CONFIDENCE_SCORE ≤ scoreResult r q := by
  have h1 : (r.class_ == "boundary" && r.type == "postal_code") = true := by
    rw [hc, ht]; decide
  have h5 : (r.class_ == "boundary" && penalizedTypes.contains r.type) = false := by
    rw [hc, ht]; decide
  have hb1 : (0:ℚ) ≤ (if labelLeads r q then 80 else 0) := by split <;> norm_num
  have hb2 : (0:ℚ) ≤ (if addrMatches r q then 50
      else if labelHas r q then 20 else 0) := by
    split
    · norm_num
    · split <;> norm_num
  have hb3 : (0:ℚ) ≤ (r.importance.getD 0) * 10 := by
    have : (0:ℚ) ≤ 10 := by norm_num
    exact mul_nonneg himp this
  have hmain : 100 ≤ scoreResult r q := by
    unfold scoreResult
    rw [h1, h5]
    norm_num
    linarith
  refine ⟨hmain, ?_⟩
  unfold MINIMUM_CONFIDENCE_SCORE
  linarith

/-- C5 witness: the theorem at the concrete gold candidate goldSW1 and the
query SW1A. -/
theorem C5_witness :
    100 ≤ scoreResult goldSW1 "SW1A" ∧
    MINIMUM_CONFIDENCE_SCORE ≤ scoreResult goldSW1 "SW1A" :=
  C5_thm goldSW1 "SW1A" rfl rfl (by decide)

/-- C9: for every collaborator behaviour and every input that is empty or
consists only of whitespace, fetchPostcodeBoundary fails at once with the
invalid-input message and issues no query at all. -/
theorem C9_thm (behavior : String → FetchOutcome) (s : String)
    (h : s.data.all isJsSpace = true) :
    fetchPostcodeBoundaryRun behavior s = ([], Except.error "Please enter a postcode.") := by
  have htrim : jsTrim s.data = [] := by
    unfold jsTrim
    have hdrop : s.data.dropWhile isJsSpace = [] :=
      List.dropWhile_eq_nil_iff.mpr (List.all_eq_true.mp h)
    rw [hdrop]
    rfl
  unfold fetchPostcodeBoundaryRun
  rw [if_pos htrim]

/-- C9 witness: the theorem at the single-space input and the collaborator that
always reports an HTTP error. -/
theorem C9_witness :
    fetchPostcodeBoundaryRun (fun _ => FetchOutcome.httpError) " " =
      ([], Except.error "Please enter a postcode.") :=
  C9_thm (fun _ => FetchOutcome.httpError) " " (by decide)

/-- C7 counterexample: under throwingBehavior the fetch for the fragment SW1
rejects; fetchPostcodeBoundary aborts at once with that transport error — it
does not continue to the broader fragment SW, although SW would have answered
with an acceptable candidate.  A per-fragment transport failure therefore does
abort the overall resolution, contradicting the claim. -/
theorem C7_counterexample :
    fetchPostcodeBoundaryRun throwingBehavior "SW1" =
      (["SW1"], Except.error "NetworkError when attempting to fetch resource.") ∧
    searchNominatim (throwingBehavior "SW") "SW" = Except.ok (some goldSW) := by
  constructor
  · rfl
  · have hb : throwingBehavior "SW" = FetchOutcome.success [goldSW] := rfl
    rw [hb]
    apply searchNominatim_success_top [goldSW] "SW" goldSW (scoreResult goldSW "SW") rfl
    have h1 : (goldSW.class_ == "boundary" && goldSW.type == "postal_code") = true := by
      decide
    have h2 : labelLeads goldSW "SW" = true := by decide
    have h3 : addrMatches goldSW "SW" = false := by decide
    have h4 : labelHas goldSW "SW" = true := by decide
    have h5 : (goldSW.class_ == "boundary" && penalizedTypes.contains goldSW.type)
        = false := by decide
    have h6 : goldSW.importance.getD 0 = 0 := by decide
    unfold MINIMUM_CONFIDENCE_SCORE scoreResult
    rw [h1, h2, h3, h4, h5, h6]
    norm_num

/-- C7 (amended): an HTTP-level failure (non-ok response) of one fragment's
query is treated as no candidates for this fragment: searchNominatim returns
null, the orchestrator continues with the next broader fragment with outcome
unchanged, and the loop's no-result outcome occurs exactly when every fragment
yields no acceptable candidate; a thrown (rejected) transport call, however,
propagates and aborts the resolution (see the counterexample). -/
theorem C7_thm (behavior : String → FetchOutcome) (pc : String) (rest l : List String)
    (hfail : behavior pc = FetchOutcome.httpError) :
    searchNominatim (behavior pc) pc = Except.ok none ∧
    runResolution behavior (pc :: rest) =
      (pc :: (runResolution behavior rest).1, (runResolution behavior rest).2) ∧
    ((runResolution behavior l).2 = Except.ok none ↔
      ∀ q ∈ l, searchNominatim (behavior q) q = Except.ok none) := by
  have h1 : searchNominatim (behavior pc) pc = Except.ok none := by rw [hfail]; rfl
  exact ⟨h1, runResolution_skip behavior pc rest h1, runResolution_none_iff behavior l⟩

/-- C7 witness: the amended theorem at the collaborator that always reports an
HTTP error, the fragment SW1, the remaining hierarchy SW. -/
theorem C7_witness :
    searchNominatim FetchOutcome.httpError "SW1" = Except.ok none ∧
    runResolution (fun _ => FetchOutcome.httpError) ("SW1" :: ["SW"]) =
      ("SW1" :: (runResolution (fun _ => FetchOutcome.httpError) ["SW"]).1,
        (runResolution (fun _ => FetchOutcome.httpError) ["SW"]).2) ∧
    ((runResolution (fun _ => FetchOutcome.httpError) ["SW1"]).2 = Except.ok none ↔
      ∀ q ∈ ["SW1"], searchNominatim FetchOutcome.httpError q = Except.ok none) :=
  C7_thm (fun _ => FetchOutcome.httpError) "SW1" ["SW"] ["SW1"] rfl

/-- C8: for every collaborator behaviour and input, when the hierarchy splits
as pre, pc, post with every fragment of pre yielding no acceptable candidate
and the fragment pc answering with a ranked list whose top candidate clears
the confidence threshold, the orchestrator returns that candidate with the
issued queries being exactly pre and pc — no query is issued for any broader
fragment of post. -/
theorem C8_thm (behavior : String → FetchOutcome) (input : String)
    (pre : List String) (pc : String) (post : List String)
    (data : List NominatimResult) (r : NominatimResult) (sc : ℚ)
    (hhier : getPostcodesToTry input = pre ++ pc :: post)
    (htrim : jsTrim input.data ≠ [])
    (hpre : ∀ q ∈ pre, searchNominatim (behavior q) q = Except.ok none)
    (hdata : behavior pc = FetchOutcome.success data)
    (htop : (rankCandidates data pc).head? = some (r, sc))
    (hsc : MINIMUM_CONFIDENCE_SCORE ≤ sc) :
    fetchPostcodeBoundaryRun behavior input = (pre ++ [pc], Except.ok r) ∧
    ∀ q ∈ post, q ∉ pre ++ [pc] := by
  have hsearch : searchNominatim (behavior pc) pc = Except.ok (some r) := by
    rw [hdata]
    exact searchNominatim_success_top data pc r sc htop hsc
  have hcons : runResolution behavior (pc :: post) = ([pc], Except.ok (some r)) := by
    simp only [runResolution, hsearch]
  have hrun : runResolution behavior (pre ++ pc :: post) =
      (pre ++ [pc], Except.ok (some r)) := by
    rw [runResolution_all_skip behavior pre (pc :: post) hpre, hcons]
  constructor
  · unfold fetchPostcodeBoundaryRun
    rw [if_neg htrim]
    simp only [hhier, hrun]
  · have hnodup := getPostcodesToTry_nodup_all input
    rw [hhier] at hnodup
    intro q hq hqmem
    rcases List.mem_append.mp hqmem with hq1 | hq2
    · exact (List.nodup_append.mp hnodup).2.2 hq1 (List.mem_cons_of_mem pc hq)
    · have hq2e : q = pc := List.mem_singleton.mp hq2
      subst hq2e
      have hnod2 : (q :: post).Nodup := (List.nodup_append.mp hnodup).2.1
      exact (List.nodup_cons.mp hnod2).1 hq

/-- C8 witness: the theorem at the collaborator acceptingBehavior and the input
SW1, whose hierarchy is SW1 then SW; the candidate goldSW1 is accepted on the
first fragment and no query is issued for SW. -/
theorem C8_witness :
    fetchPostcodeBoundaryRun acceptingBehavior "SW1" = ([] ++ ["SW1"], Except.ok goldSW1) ∧
    ∀ q ∈ ["SW"], q ∉ ([] : List String) ++ ["SW1"] :=
  C8_thm acceptingBehavior "SW1" [] "SW1" ["SW"] [goldSW1] goldSW1
    (scoreResult goldSW1 "SW1") (by decide) (by decide)
    (fun q hq => absurd hq (List.not_mem_nil q)) rfl rfl
    (by
      have h1 : (goldSW1.class_ == "boundary" && goldSW1.type == "postal_code") = true := by
        decide
      have h2 : labelLeads goldSW1 "SW1" = true := by decide
      have h3 : addrMatches goldSW1 "SW1" = false := by decide
      have h4 : labelHas goldSW1 "SW1" = true := by decide
      have h5 : (goldSW1.class_ == "boundary" && penalizedTypes.contains goldSW1.type)
          = false := by decide
      have h6 : goldSW1.importance.getD 0 = 0 := by decide
      unfold MINIMUM_CONFIDENCE_SCORE scoreResult
      rw [h1, h2, h3, h4, h5, h6]
      norm_num)
